import Mathlib

/-!
Shallow embedding of the TRENT-OS `rpi_spi_sd` SPI SD-card driver
(`SDFileSystem.c`, `SDCard.h`, and the CAmkES storage RPC glue).

The SPI bus is modelled as a response stream `Bus : Nat → Nat`: the answer
of the card to the i-th byte transfer of a run is `bus i % 256`.  Chip-select
changes and wait calls consume no transfers, so the stream index doubles as
the bus-transfer counter.  Bounded polling loops carry their source retry
budget (`SD_COMMAND_TIMEOUT`); the two unbounded busy-wait loops of `_read`
and `_write` are modelled with an explicit fuel argument, `none` standing
for a run that has not observed its awaited byte within that fuel.
-/

namespace SpiSd

/-- Bus response stream: byte returned by the card for each transfer index. -/
abbrev Bus := Nat → Nat

/-- Byte read on the i-th transfer (`uint8_t` return of `_spi_read_write`). -/
def byteAt (bus : Bus) (i : Nat) : Nat := bus i % 256

/-- Retry budget constant of `SDCard.h`. -/
def SD_COMMAND_TIMEOUT : Nat := 5000

/-- Fixed block size of `SDFileSystem.c`. -/
def BLOCK_SIZE : Nat := 512

/-- Response-poll loop shared by `_cmd`, `_cmdx` and `_cmd58`: transmit fill
bytes until one with the high bit clear arrives, or the budget runs out.
Returns the response byte and the index after it. -/
def cmdPoll (bus : Bus) : Nat → Nat → Option (Nat × Nat)
  | _, 0 => none
  | i, fuel+1 =>
    if byteAt bus i < 0x80 then some (byteAt bus i, i + 1)
    else cmdPoll bus (i + 1) fuel

/-- Embedding of `_cmd`: 6 frame transfers, response poll, then one flush
transfer after deselect on both exits.  Result is the R1 byte or -1. -/
def cmdRun (bus : Bus) (i : Nat) : Int × Nat :=
  match cmdPoll bus (i + 6) SD_COMMAND_TIMEOUT with
  | some (r, j) => ((r : Int), j + 1)
  | none => (-1, i + 6 + SD_COMMAND_TIMEOUT + 1)

/-- Embedding of `_cmdx`: identical framing, but a successful exit keeps the
card selected and sends no flush byte. -/
def cmdxRun (bus : Bus) (i : Nat) : Int × Nat :=
  match cmdPoll bus (i + 6) SD_COMMAND_TIMEOUT with
  | some (r, j) => ((r : Int), j)
  | none => (-1, i + 6 + SD_COMMAND_TIMEOUT + 1)

/-- Embedding of `_cmd58`: on success four OCR bytes are read and dropped
before the flush transfer. -/
def cmd58Run (bus : Bus) (i : Nat) : Int × Nat :=
  match cmdPoll bus (i + 6) SD_COMMAND_TIMEOUT with
  | some (r, j) => ((r : Int), j + 5)
  | none => (-1, i + 6 + SD_COMMAND_TIMEOUT + 1)

/-- Bounds-checked store into the 5-byte local buffer of `_cmd8`; the `none`
branch is the out-of-range case of `response[i] = ...`. -/
def store? (l : List Nat) (i : Nat) (v : Nat) : Option (List Nat) :=
  if i < l.length then some (l.set i v) else none

/-- Result of a `_cmd8` run: returned status value, next transfer index, and
whether the trailing-byte store ever went out of the bounds of the buffer. -/
structure Cmd8Out where
  ret : Int
  next : Nat
  oob : Bool
deriving DecidableEq, Repr

/-- Inner loop of `_cmd8`: the four trailing reply bytes are all stored at
`response[i]` where `i` is the OUTER loop counter (source line 360), exactly
as written in the C. -/
def cmd8Trailing (bus : Bus) (buf : List Nat) (iter i : Nat) : List Nat × Bool :=
  [1, 2, 3, 4].foldl
    (fun acc j =>
      match store? acc.1 iter (byteAt bus (i + j)) with
      | some b => (b, acc.2)
      | none => (acc.1, true))
    (buf, false)

/-- Polling loop of `_cmd8` (budget `SD_COMMAND_TIMEOUT * 1000`), keeping the
loop counter `iter`, the bus index `i`, and the remaining budget in step. -/
def cmd8Poll (bus : Bus) : Nat → Nat → Nat → Cmd8Out
  | _, i, 0 => ⟨-1, i + 1, false⟩
  | iter, i, fuel+1 =>
    if byteAt bus i < 0x80 then
      let buf0 : List Nat := [byteAt bus i, 0, 0, 0, 0]
      let tb := cmd8Trailing bus buf0 iter i
      ⟨(tb.1.getD 0 0 : Int), i + 6, tb.2⟩
    else cmd8Poll bus (iter + 1) (i + 1) fuel

/-- Embedding of `_cmd8`: fixed CMD8 frame (6 transfers) then the poll. -/
def cmd8Run (bus : Bus) (i : Nat) : Cmd8Out :=
  cmd8Poll bus 0 (i + 6) (SD_COMMAND_TIMEOUT * 1000)

/-- Start-of-block token wait of `_read` (`while (x != 0xFE);`, unbounded in
the source), followed by `len` data transfers, 2 checksum transfers and one
flush transfer.  Returns the next transfer index. -/
def readRun (bus : Bus) (i len : Nat) : Nat → Option Nat
  | 0 => none
  | fuel+1 =>
    if byteAt bus i = 0xFE then some (i + len + 4)
    else readRun bus (i + 1) len fuel

/-- Variant of `readRun` that also captures the `len` payload bytes (used for
the CSD register read). -/
def readCapture (bus : Bus) (i len : Nat) : Nat → Option (List Nat × Nat)
  | 0 => none
  | fuel+1 =>
    if byteAt bus i = 0xFE then
      some ((List.range len).map (fun k => byteAt bus (i + 1 + k)), i + len + 4)
    else readCapture bus (i + 1) len fuel

/-- Busy wait of `_write` (`while (x == 0);`, unbounded in the source).
Returns the index after the first nonzero byte. -/
def busyPoll (bus : Bus) (i : Nat) : Nat → Option Nat
  | 0 => none
  | fuel+1 =>
    if byteAt bus i = 0 then busyPoll bus (i + 1) fuel
    else some (i + 1)

/-- Embedding of `_write`: token + `len` data + 2 checksum transfers, then
the data-response token; a token whose low 5 bits differ from 0b00101 is a
rejection (result 1), otherwise the busy wait runs before the flush. -/
def writeRun (bus : Bus) (i len : Nat) (fuel : Nat) : Option (Int × Nat) :=
  let ti := i + len + 3
  if byteAt bus ti &&& 0x1F ≠ 0x05 then some (1, ti + 2)
  else
    match busyPoll bus (ti + 1) fuel with
    | none => none
    | some j => some (0, j + 1)

/-- Loop of `ext_bits` (`SDCard.h`): `n` iterations already performed,
accumulating `bits |= ((data[15 - (p>>3)] >> (p&7)) & 1) << i` for
`p = lsb + i`.  All uses in the driver have width at most 22, so the
`uint32_t` accumulator never wraps and plain `Nat` or-accumulation is exact. -/
def extBitsAux (data : List Nat) (lsb : Nat) : Nat → Nat
  | 0 => 0
  | n+1 =>
    extBitsAux data lsb n |||
      ((data.getD (15 - ((lsb + n) >>> 3)) 0 >>> ((lsb + n) &&& 7)) &&& 1) <<< n

/-- Embedding of `ext_bits`: extract the inclusive bit range `[lsb, msb]`
from the 16-byte register, bit `p` living in byte `15 - (p >> 3)`. -/
def ext_bits (data : List Nat) (msb lsb : Nat) : Nat :=
  extBitsAux data lsb (1 + msb - lsb)

/-- Big-integer reference value of the register: byte 0 transmitted first is
most significant, byte 15 least significant. -/
def csdNat (data : List Nat) : Nat :=
  data.foldl (fun acc b => acc * 256 + b) 0

/-- Little-endian byte value, used to reason about `csdNat` via the reversed
byte list. -/
def leNat : List Nat → Nat
  | [] => 0
  | b :: t => b + 256 * leNat t

/-- Version-0 byte capacity (`capacity` local of the source), with every
`uint32_t` step reduced modulo 2^32 as in the C. -/
def capDecodeV0 (csd : List Nat) : Nat :=
  let c_size := ext_bits csd 73 62
  let c_size_mult := ext_bits csd 49 47
  let read_bl_len := ext_bits csd 83 80
  let block_len := (1 <<< read_bl_len) % 4294967296
  let mult := (1 <<< (c_size_mult + 2)) % 4294967296
  let blocknr := ((c_size + 1) * mult) % 4294967296
  (blocknr * block_len) % 4294967296

/-- Version-0 (standard capacity) branch of the `_sd_sectors` switch:
`blocks = capacity / BLOCK_SIZE`. -/
def sdDecodeV0 (csd : List Nat) : Nat :=
  capDecodeV0 csd / 512

/-- Result of `_sd_sectors`: sector count, updated `_cdv`, next index. -/
structure SdSectorsOut where
  blocks : Int
  cdv : Nat
  next : Nat
deriving DecidableEq, Repr

/-- Embedding of `_sd_sectors`: CMD9 via `_cmdx`, 16-byte CSD capture, then
the structure-field switch (case 0 sets `_cdv = 512`, case 1 sets
`_cdv = 1`, default leaves it and reports 0 sectors). -/
def sd_sectors (bus : Bus) (i : Nat) (cdv : Nat) (fuel : Nat) :
    Option SdSectorsOut :=
  let c := cmdxRun bus i
  if c.1 ≠ 0 then some ⟨0, cdv, c.2⟩
  else
    match readCapture bus c.2 16 fuel with
    | none => none
    | some (csd, j) =>
      let cs := ext_bits csd 127 126
      if cs = 0 then some ⟨(sdDecodeV0 csd : Int), 512, j⟩
      else if cs = 1 then some ⟨((ext_bits csd 69 48 : Int) + 1) * 1024, 1, j⟩
      else some ⟨0, cdv, j⟩

/-- Embedding of `disk_capacity`: re-issues CMD9 and the CSD capture on every
call; for a version-0 register it returns the freshly decoded byte capacity,
for a version-1 register it returns the CACHED sector count `_sectors` times
`BLOCK_SIZE` (source line 525), and 0 when the card does not answer. -/
def disk_capacity (bus : Bus) (i : Nat) (sectors : Int) (fuel : Nat) :
    Option (Int × Nat) :=
  let c := cmdxRun bus i
  if c.1 ≠ 0 then some (0, c.2)
  else
    match readCapture bus c.2 16 fuel with
    | none => none
    | some (csd, j) =>
      let cs := ext_bits csd 127 126
      if cs = 0 then some ((capDecodeV0 csd : Nat), j)
      else if cs = 1 then some (sectors * 512, j)
      else some (0, j)

/-- Per-block loop of `disk_read`: CMD17 then a 512-byte block read for each
block; a nonzero command response aborts with result 1. -/
def diskReadLoop (bus : Bus) (cdv fuel : Nat) : Nat → Nat → Nat → Option (Int × Nat)
  | 0, _, i => some (0, i)
  | count+1, b, i =>
    let c := cmdRun bus i
    if c.1 ≠ 0 then some (1, c.2)
    else
      match readRun bus c.2 512 fuel with
      | none => none
      | some j => diskReadLoop bus cdv fuel count (b + 1) j

/-- Embedding of `disk_read`: rejected with -1 when `_is_initialized` is 0. -/
def disk_read (bus : Bus) (isInit : Int) (cdv fuel block count i : Nat) :
    Option (Int × Nat) :=
  if isInit = 0 then some (-1, i) else diskReadLoop bus cdv fuel count block i

/-- Per-block loop of `disk_write`: CMD24 then `_write`; the return value of
`_write` is DISCARDED by the source (line 227), so a rejected data block does
not abort the loop. -/
def diskWriteLoop (bus : Bus) (cdv fuel : Nat) : Nat → Nat → Nat → Option (Int × Nat)
  | 0, _, i => some (0, i)
  | count+1, b, i =>
    let c := cmdRun bus i
    if c.1 ≠ 0 then some (1, c.2)
    else
      match writeRun bus c.2 512 fuel with
      | none => none
      | some w => diskWriteLoop bus cdv fuel count (b + 1) w.2

/-- Embedding of `disk_write`: rejected with -1 when `_is_initialized` is 0. -/
def disk_write (bus : Bus) (isInit : Int) (cdv fuel block count i : Nat) :
    Option (Int × Nat) :=
  if isInit = 0 then some (-1, i) else diskWriteLoop bus cdv fuel count block i

/-- Embedding of `disk_status`. -/
def disk_status (isInit : Int) : Int :=
  if isInit ≠ 0 then 0 else 1

/-- V1 bring-up loop (`initialise_card_v1`): CMD55 then ACMD41 with argument
0, up to `SD_COMMAND_TIMEOUT` attempts; success sets `_cdv = BLOCK_SIZE`.
Returns (result, next index, `_cdv`, issued command/argument log). -/
def initV1 (bus : Bus) (i cdv : Nat) : Nat → Int × Nat × Nat × List (Nat × Nat)
  | 0 => (0, i, cdv, [])
  | fuel+1 =>
    let c55 := cmdRun bus i
    let c41 := cmdRun bus c55.2
    if c41.1 = 0 then (1, c41.2, 512, [(55, 0), (41, 0)])
    else
      let rest := initV1 bus c41.2 cdv fuel
      (rest.1, rest.2.1, rest.2.2.1, (55, 0) :: (41, 0) :: rest.2.2.2)

/-- V2 bring-up loop (`initialise_card_v2`): wait, CMD58, CMD55, ACMD41 with
the high-capacity bit 0x40000000, up to `SD_COMMAND_TIMEOUT` attempts;
success reads CMD58 once more and sets `_cdv = 1`. -/
def initV2 (bus : Bus) (i cdv : Nat) : Nat → Int × Nat × Nat × List (Nat × Nat)
  | 0 => (0, i, cdv, [])
  | fuel+1 =>
    let c58 := cmd58Run bus i
    let c55 := cmdRun bus c58.2
    let c41 := cmdRun bus c55.2
    if c41.1 = 0 then
      let c58b := cmd58Run bus c41.2
      (2, c58b.2, 1, [(58, 0), (55, 0), (41, 0x40000000), (58, 0)])
    else
      let rest := initV2 bus c41.2 cdv fuel
      (rest.1, rest.2.1, rest.2.2.1,
        (58, 0) :: (55, 0) :: (41, 0x40000000) :: rest.2.2.2)

/-- Result of `initialise_card`: return code (0 fail / 1 V1 / 2 V2), final
`_cdv`, next index, the log of issued (command, argument) pairs, the CMD8
probe result when the probe was reached, and the branch taken (1 = V1 path,
2 = V2 path). -/
structure InitOut where
  ret : Int
  cdv : Nat
  next : Nat
  log : List (Nat × Nat)
  probe : Option Int
  path : Option Nat
deriving DecidableEq, Repr

/-- Embedding of `initialise_card`: 16 clocking transfers, six CMD0 (the
sixth must answer exactly `R1_IDLE_STATE`), then the CMD8 probe selecting
the V2 path on 1, the V1 path on `idle|illegalCommand` = 5, failure
otherwise. -/
def initialise_card (bus : Bus) (cdv0 : Nat) : InitOut :=
  let a1 := (cmdRun bus 16).2
  let a2 := (cmdRun bus a1).2
  let a3 := (cmdRun bus a2).2
  let a4 := (cmdRun bus a3).2
  let a5 := (cmdRun bus a4).2
  let c6 := cmdRun bus a5
  let log0 : List (Nat × Nat) := [(0, 0), (0, 0), (0, 0), (0, 0), (0, 0), (0, 0)]
  if c6.1 ≠ 1 then ⟨0, cdv0, c6.2, log0, none, none⟩
  else
    let c8 := cmd8Run bus c6.2
    let log1 := log0 ++ [(8, 0x1AA)]
    if c8.ret = 1 then
      let v2 := initV2 bus c8.next cdv0 SD_COMMAND_TIMEOUT
      ⟨v2.1, v2.2.2.1, v2.2.1, log1 ++ v2.2.2.2, some c8.ret, some 2⟩
    else if c8.ret = 5 then
      let v1 := initV1 bus c8.next cdv0 SD_COMMAND_TIMEOUT
      ⟨v1.1, v1.2.2.1, v1.2.1, log1 ++ v1.2.2.2, some c8.ret, some 1⟩
    else ⟨0, cdv0, c8.next, log1, some c8.ret, none⟩

/-- Result of `disk_initialize`: return code (0 ok / 1 fail) plus the global
driver state it leaves behind (`_is_initialized`, `_sectors`, `_cdv`). -/
structure DiskInitOut where
  ret : Int
  isInit : Int
  sectors : Int
  cdv : Nat
  next : Nat
deriving DecidableEq, Repr

/-- Embedding of `disk_initialize`: `_is_initialized = initialise_card(...)`;
on bring-up failure it returns 1, otherwise `_sectors = _sd_sectors(...)` and
CMD16 with argument `BLOCK_SIZE`.  A rejected CMD16 returns 1 but leaves
`_is_initialized` at its nonzero card-type value (source lines 195-213). -/
def disk_initialize (bus : Bus) (fuel : Nat) : Option DiskInitOut :=
  let ic := initialise_card bus 0
  if ic.ret = 0 then some ⟨1, ic.ret, 0, ic.cdv, ic.next⟩
  else
    match sd_sectors bus ic.next ic.cdv fuel with
    | none => none
    | some sd =>
      let c16 := cmdRun bus sd.next
      if c16.1 ≠ 0 then some ⟨1, ic.ret, sd.blocks, sd.cdv, c16.2⟩
      else some ⟨0, ic.ret, sd.blocks, sd.cdv, c16.2⟩

/-- Component state left by `post_init`. -/
structure PostInitOut where
  initOk : Bool
  isInit : Int
  sectors : Int
  cdv : Nat
  diskInitRet : Int
  next : Nat
deriving DecidableEq, Repr

/-- Embedding of `post_init`: when the SPI controller comes up, it runs
`disk_initialize` and then tests `NULL == ctx.spi_sd_ctx.hal` to decide
failure — but `initialise_card` stores the hal pointer unconditionally, so
that check can never fire and `init_ok` is set regardless of the
`disk_initialize` return code (source lines 336-347). -/
def post_init (bus : Bus) (spiBeginOk : Bool) (fuel : Nat) : Option PostInitOut :=
  if !spiBeginOk then some ⟨false, 0, 0, 0, 0, 0⟩
  else
    match disk_initialize bus fuel with
    | none => none
    | some d =>
      let halIsNull := false
      if halIsNull then some ⟨false, d.isInit, d.sectors, d.cdv, d.ret, d.next⟩
      else some ⟨true, d.isInit, d.sectors, d.cdv, d.ret, d.next⟩

/-- The `OS_Error_t` codes the storage RPC handlers can produce. -/
inductive OsErr where
  | success
  | invalidState
  | invalidParameter
  | outOfBounds
  | generic
deriving DecidableEq, Repr

/-- Result of an RPC handler: error code, value stored in the out-parameter
(`*written` / `*read` / `*erased`), the internal byte counter of the handler at
the exit point (`bytesWritten` etc., which the source only logs), and the
number of bus transfers performed. -/
structure RpcOut where
  err : OsErr
  written : Int
  progress : Int
  next : Nat
deriving DecidableEq, Repr

/-- Embedding of `isValidMSDArea`, applied to the capacity value the check
obtained from its live `disk_capacity` call. -/
def isValidMSDArea (offset size capacity : Int) : Bool :=
  let e := offset + size
  (0 ≤ offset) && (0 ≤ size) && (offset ≤ e) && (e ≤ capacity)

/-- Tail step shared by the body loop of `storage_rpc_write`: a final partial
block (0 < size ≤ 512) is read-modified-written; size 0 exits with success. -/
def writeTail (bus : Bus) (isInit : Int) (cdv fuel : Nat) (size sector : Nat)
    (bytes : Int) (i : Nat) : Option RpcOut :=
  if 0 < size then
    match disk_read bus isInit cdv fuel (sector + 1) 1 i with
    | none => none
    | some (r, j) =>
      if r ≠ 0 then some ⟨.generic, 0, bytes, j⟩
      else
        match disk_write bus isInit cdv fuel (sector + 1) 1 j with
        | none => none
        | some (r2, j2) =>
          if r2 ≠ 0 then some ⟨.generic, 0, bytes, j2⟩
          else some ⟨.success, bytes + size, bytes + size, j2⟩
  else some ⟨.success, bytes, bytes, i⟩

/-- Body + tail of `storage_rpc_write` after the head block: while more than
a block remains, write full blocks at `++sector`; the final partial block is
handled by `writeTail`.  `gas` is a structural bound on the number of body
iterations; every call sites passes `gas = size`, and since `size` shrinks
by 512 while `gas` shrinks by 1, the loop guard is always reached with gas
to spare, so the embedding equals the C `while (size > 512)` loop. -/
def writeLoopW (bus : Bus) (isInit : Int) (cdv fuel : Nat) :
    Nat → Nat → Nat → Int → Nat → Option RpcOut
  | 0, size, sector, bytes, i => writeTail bus isInit cdv fuel size sector bytes i
  | gas+1, size, sector, bytes, i =>
    if 512 < size then
      match disk_write bus isInit cdv fuel (sector + 1) 1 i with
      | none => none
      | some (r, j) =>
        if r ≠ 0 then some ⟨.generic, 0, bytes, j⟩
        else writeLoopW bus isInit cdv fuel gas (size - 512) (sector + 1) (bytes + 512) j
    else writeTail bus isInit cdv fuel size sector bytes i

/-- Embedding of `storage_rpc_write`: init flag check, dataport size check,
bounds check (which itself queries `disk_capacity` over the bus), then the
head read-modify-write followed by the body/tail loop. -/
def storage_rpc_write (bus : Bus) (initOk : Bool) (isInit sectors : Int)
    (cdv dp : Nat) (offset : Int) (size : Nat) (fuel : Nat) : Option RpcOut :=
  if !initOk then some ⟨.invalidState, 0, 0, 0⟩
  else if dp < size then some ⟨.invalidParameter, 0, 0, 0⟩
  else
    match disk_capacity bus 0 sectors fuel with
    | none => none
    | some (cap, j) =>
      if !isValidMSDArea offset (size : Int) cap then some ⟨.outOfBounds, 0, 0, j⟩
      else if 0 < size then
        let sector := (offset / 512).toNat
        let skew := (offset - (sector : Int) * 512).toNat
        match disk_read bus isInit cdv fuel sector 1 j with
        | none => none
        | some (r, j1) =>
          if r ≠ 0 then some ⟨.generic, 0, 0, j1⟩
          else
            let nbr := min size (512 - skew)
            match disk_write bus isInit cdv fuel sector 1 j1 with
            | none => none
            | some (r2, j2) =>
              if r2 ≠ 0 then some ⟨.generic, 0, 0, j2⟩
              else writeLoopW bus isInit cdv fuel (size - nbr) (size - nbr) sector
                (nbr : Int) j2
      else some ⟨.success, 0, 0, j⟩

/-- Tail step of `storage_rpc_read`: a final partial block is read and
copied out. -/
def readTail (bus : Bus) (isInit : Int) (cdv fuel : Nat) (size sector : Nat)
    (bytes : Int) (i : Nat) : Option RpcOut :=
  if 0 < size then
    match disk_read bus isInit cdv fuel (sector + 1) 1 i with
    | none => none
    | some (r, j) =>
      if r ≠ 0 then some ⟨.generic, 0, bytes, j⟩
      else some ⟨.success, bytes + size, bytes + size, j⟩
  else some ⟨.success, bytes, bytes, i⟩

/-- Body + tail of `storage_rpc_read`, with the same structural `gas` bound
as `writeLoopW`. -/
def readLoopR (bus : Bus) (isInit : Int) (cdv fuel : Nat) :
    Nat → Nat → Nat → Int → Nat → Option RpcOut
  | 0, size, sector, bytes, i => readTail bus isInit cdv fuel size sector bytes i
  | gas+1, size, sector, bytes, i =>
    if 512 < size then
      match disk_read bus isInit cdv fuel (sector + 1) 1 i with
      | none => none
      | some (r, j) =>
        if r ≠ 0 then some ⟨.generic, 0, bytes, j⟩
        else readLoopR bus isInit cdv fuel gas (size - 512) (sector + 1) (bytes + 512) j
    else readTail bus isInit cdv fuel size sector bytes i

/-- Embedding of `storage_rpc_read`. -/
def storage_rpc_read (bus : Bus) (initOk : Bool) (isInit sectors : Int)
    (cdv dp : Nat) (offset : Int) (size : Nat) (fuel : Nat) : Option RpcOut :=
  if !initOk then some ⟨.invalidState, 0, 0, 0⟩
  else if dp < size then some ⟨.invalidParameter, 0, 0, 0⟩
  else
    match disk_capacity bus 0 sectors fuel with
    | none => none
    | some (cap, j) =>
      if !isValidMSDArea offset (size : Int) cap then some ⟨.outOfBounds, 0, 0, j⟩
      else if 0 < size then
        let sector := (offset / 512).toNat
        let skew := (offset - (sector : Int) * 512).toNat
        match disk_read bus isInit cdv fuel sector 1 j with
        | none => none
        | some (r, j1) =>
          if r ≠ 0 then some ⟨.generic, 0, 0, j1⟩
          else
            let nbr := min size (512 - skew)
            readLoopR bus isInit cdv fuel (size - nbr) (size - nbr) sector (nbr : Int) j1
      else some ⟨.success, 0, 0, j⟩

/-- Tail step of `storage_rpc_erase` (`size` is a signed `off_t`). -/
def eraseTail (bus : Bus) (isInit : Int) (cdv fuel : Nat) (size : Int)
    (sector : Nat) (bytes : Int) (i : Nat) : Option RpcOut :=
  if 0 < size then
    match disk_read bus isInit cdv fuel (sector + 1) 1 i with
    | none => none
    | some (r, j) =>
      if r ≠ 0 then some ⟨.generic, 0, bytes, j⟩
      else
        match disk_write bus isInit cdv fuel (sector + 1) 1 j with
        | none => none
        | some (r2, j2) =>
          if r2 ≠ 0 then some ⟨.generic, 0, bytes, j2⟩
          else some ⟨.success, bytes + size, bytes + size, j2⟩
  else some ⟨.success, bytes, bytes, i⟩

/-- Body + tail of `storage_rpc_erase`, with the structural `gas` bound
(`gas = size.toNat` at the call site). -/
def eraseLoopE (bus : Bus) (isInit : Int) (cdv fuel : Nat) :
    Nat → Int → Nat → Int → Nat → Option RpcOut
  | 0, size, sector, bytes, i => eraseTail bus isInit cdv fuel size sector bytes i
  | gas+1, size, sector, bytes, i =>
    if 512 < size then
      match disk_write bus isInit cdv fuel (sector + 1) 1 i with
      | none => none
      | some (r, j) =>
        if r ≠ 0 then some ⟨.generic, 0, bytes, j⟩
        else eraseLoopE bus isInit cdv fuel gas (size - 512) (sector + 1) (bytes + 512) j
    else eraseTail bus isInit cdv fuel size sector bytes i

/-- Embedding of `storage_rpc_erase`.  `size` is signed; the C dataport
comparison converts it to `size_t`, so a negative size compares huge and is
rejected as an invalid parameter (for any realistic dataport size). -/
def storage_rpc_erase (bus : Bus) (initOk : Bool) (isInit sectors : Int)
    (cdv dp : Nat) (offset size : Int) (fuel : Nat) : Option RpcOut :=
  if !initOk then some ⟨.invalidState, 0, 0, 0⟩
  else if size < 0 then some ⟨.invalidParameter, 0, 0, 0⟩
  else if (dp : Int) < size then some ⟨.invalidParameter, 0, 0, 0⟩
  else
    match disk_capacity bus 0 sectors fuel with
    | none => none
    | some (cap, j) =>
      if !isValidMSDArea offset size cap then some ⟨.outOfBounds, 0, 0, j⟩
      else if 0 < size then
        let sector := (offset / 512).toNat
        let skew := offset - (sector : Int) * 512
        match disk_read bus isInit cdv fuel sector 1 j with
        | none => none
        | some (r, j1) =>
          if r ≠ 0 then some ⟨.generic, 0, 0, j1⟩
          else
            let nbr := min size (512 - skew)
            match disk_write bus isInit cdv fuel sector 1 j1 with
            | none => none
            | some (r2, j2) =>
              if r2 ≠ 0 then some ⟨.generic, 0, 0, j2⟩
              else eraseLoopE bus isInit cdv fuel (size - nbr).toNat (size - nbr) sector
                nbr j2
      else some ⟨.success, 0, 0, j⟩

/-- Embedding of `storage_rpc_getState`: `flags = disk_status()` when the
session is marked initialized. -/
def storage_rpc_getState (initOk : Bool) (isInit : Int) : OsErr × Int :=
  if !initOk then (.invalidState, 0) else (.success, disk_status isInit)

/-! Concrete bus behaviours and register fixtures used to instantiate the
theorems.  Unlisted positions answer 0, which reads as an immediate
successful command response. -/

/-- Bus on which the CMD8 leading status byte (value 1, idle) arrives at
polling iteration 0, and the fourth trailing reply byte is 0x55. -/
def busA : Bus := fun i =>
  if i = 6 then 1 else if i = 10 then 0x55 else 0

/-- Bus on which the CMD8 leading status byte (value 5) arrives at polling
iteration 1. -/
def busB : Bus := fun i =>
  if i = 6 then 0x85 else if i = 7 then 5 else 0

/-- Bus on which the first CMD8 poll byte with a clear high bit arrives at
polling iteration 5. -/
def busC : Bus := fun i =>
  if 6 ≤ i ∧ i ≤ 10 then 0x85 else if i = 11 then 1 else 0

/-- Bus for a full V1 bring-up: six CMD0 answered with 1, CMD8 answered 5 at
iteration 1, then CMD55/ACMD41 succeeding at once. -/
def busD : Bus := fun i =>
  if i = 22 ∨ i = 30 ∨ i = 38 ∨ i = 46 ∨ i = 54 ∨ i = 62 then 1
  else if i = 70 then 0x85
  else if i = 71 then 5
  else 0

/-- Bus for a capacity query answered by a version-1 (high capacity) CSD with
all `hcCSize` bits zero: CMD9 accepted at once, start token, register
`0x40, 0, ..., 0`. -/
def busE : Bus := fun i =>
  if i = 7 then 0xFE else if i = 8 then 0x40 else 0

/-- Bus for a `post_init` run in which bring-up succeeds on the V1 path,
`_sd_sectors` captures a version-1 CSD, and CMD16 is then rejected with
`illegalCommand` (0x04). -/
def busF : Bus := fun i =>
  if i = 22 ∨ i = 30 ∨ i = 38 ∨ i = 46 ∨ i = 54 ∨ i = 62 then 1
  else if i = 70 then 0x85
  else if i = 71 then 5
  else if i = 100 then 0xFE
  else if i = 101 then 0x40
  else if i = 126 then 4
  else 0

/-- Bus for a write request of 1025 bytes at offset 0: the capacity check and
the head block's read-modify-write succeed, then CMD24 for the second block
is rejected with 0x04. -/
def busG : Bus := fun i =>
  if i = 7 then 0xFE else if i = 8 then 0x40
  else if i = 35 then 0xFE
  else if i = 1074 then 0x05 else if i = 1075 then 0xFF
  else if i = 1083 then 4
  else 0

/-- Version-0 CSD register whose byte capacity is 2^36 and therefore wraps
to 0 in the 32-bit `capacity` variable: `cSize = 4095`, `cSizeMult = 7`,
`readBlockLen = 15`. -/
def csdOverflow : List Nat :=
  [0, 0, 0, 0, 0, 0x0F, 0x03, 0xFF, 0xC0, 0x03, 0x80, 0, 0, 0, 0, 0]

/-- Bus delivering `csdOverflow` to a CSD capture: CMD9 accepted at once,
start token at index 7, register bytes at indices 8-23. -/
def busH : Bus := fun i =>
  if i = 7 then 0xFE
  else if 8 ≤ i ∧ i ≤ 23 then csdOverflow.getD (i - 8) 0
  else 0

/-- Bus whose every byte is 0x00: commands succeed immediately, but the
start-of-block token never arrives and the write busy wait never ends. -/
def busZero : Bus := fun _ => 0

/-! Helper lemmas about the protocol primitives. -/

theorem cmd8Trailing_fst_getD_zero (bus : Bus) (iter i : Nat) (h : 1 ≤ iter) :
    ∀ (js : List Nat) (acc : List Nat × Bool),
      ((js.foldl (fun acc j =>
          match store? acc.1 iter (byteAt bus (i + j)) with
          | some b => (b, acc.2)
          | none => (acc.1, true)) acc).1).getD 0 0 = acc.1.getD 0 0 := by
  intro js
  induction js with
  | nil => intro acc; rfl
  | cons j t iht =>
    intro acc
    rw [List.foldl_cons]
    rcases hs : store? acc.1 iter (byteAt bus (i + j)) with _ | b
    · exact iht (acc.1, true)
    · have hb : b.getD 0 0 = acc.1.getD 0 0 := by
        unfold store? at hs
        split at hs
        · cases hs
          simp only [List.getD_eq_getElem?_getD]
          rw [List.getElem?_set_ne (by omega)]
        · cases hs
      exact (iht (b, acc.2)).trans hb

theorem cmd8Poll_ret_of_first_clear (bus : Bus) :
    ∀ (fuel iter i k : Nat), k < fuel →
      (∀ j, j < k → 0x80 ≤ byteAt bus (i + j)) →
      byteAt bus (i + k) < 0x80 →
      1 ≤ iter + k → iter + k ≤ 4 →
      (cmd8Poll bus iter i fuel).ret = byteAt bus (i + k) := by
  intro fuel
  induction fuel with
  | zero => intro iter i k hk; omega
  | succ n ih =>
    intro iter i k hk hbefore hlead h1 h4
    match k with
    | 0 =>
      simp only [Nat.add_zero] at hlead
      simp only [cmd8Poll, hlead, if_pos]
      have : (cmd8Trailing bus [byteAt bus i, 0, 0, 0, 0] iter i).1.getD 0 0
          = byteAt bus i := by
        have := cmd8Trailing_fst_getD_zero bus iter i (by omega) [1, 2, 3, 4]
          ([byteAt bus i, 0, 0, 0, 0], false)
        simpa [cmd8Trailing] using this
      simpa [List.getD_eq_getElem?_getD] using this
    | k' + 1 =>
      have h0 : 0x80 ≤ byteAt bus (i + 0) := hbefore 0 (by omega)
      simp only [Nat.add_zero] at h0
      have hnot : ¬ byteAt bus i < 0x80 := by omega
      simp only [cmd8Poll, hnot, if_neg, not_false_iff]
      have := ih (iter + 1) (i + 1) k' (by omega)
        (fun j hj => by
          have := hbefore (j + 1) (by omega)
          simpa [Nat.add_assoc, Nat.add_comm 1 j] using this)
        (by simpa [Nat.add_assoc, Nat.add_comm 1 k'] using hlead)
        (by omega) (by omega)
      simpa [Nat.add_assoc, Nat.add_comm 1 k'] using this

theorem readRun_none_of_no_token (bus : Bus) (len : Nat)
    (h : ∀ k, byteAt bus k ≠ 0xFE) : ∀ fuel i, readRun bus i len fuel = none := by
  intro fuel
  induction fuel with
  | zero => intro i; rfl
  | succ n ih => intro i; simp only [readRun, h i, if_neg, not_false_iff]; exact ih _

theorem busyPoll_none_of_all_zero (bus : Bus)
    (h : ∀ k, byteAt bus k = 0) : ∀ fuel i, busyPoll bus i fuel = none := by
  intro fuel
  induction fuel with
  | zero => intro i; rfl
  | succ n ih => intro i; simp only [busyPoll, h i, if_pos]; exact ih _

theorem readRun_isSome_iff (bus : Bus) (len : Nat) :
    ∀ i, (∃ fuel, (readRun bus i len fuel).isSome = true) ↔
      ∃ k, byteAt bus (i + k) = 0xFE := by
  intro i
  constructor
  · rintro ⟨fuel, hf⟩
    induction fuel generalizing i with
    | zero => simp [readRun] at hf
    | succ n ih =>
      by_cases ht : byteAt bus i = 0xFE
      · exact ⟨0, by simpa using ht⟩
      · rw [readRun, if_neg ht] at hf
        obtain ⟨k, hk⟩ := ih (i + 1) hf
        exact ⟨k + 1, by simpa [Nat.add_assoc, Nat.add_comm 1 k] using hk⟩
  · rintro ⟨k, hk⟩
    refine ⟨k + 1, ?_⟩
    induction k generalizing i with
    | zero =>
      simp only [Nat.add_zero] at hk
      simp [readRun, hk]
    | succ m ih =>
      by_cases ht : byteAt bus i = 0xFE
      · simp [readRun, ht]
      · rw [readRun, if_neg ht]
        exact ih (i + 1) (by simpa [Nat.add_assoc, Nat.add_comm 1 m] using hk)

theorem busyPoll_isSome_iff (bus : Bus) :
    ∀ i, (∃ fuel, (busyPoll bus i fuel).isSome = true) ↔
      ∃ k, byteAt bus (i + k) ≠ 0 := by
  intro i
  constructor
  · rintro ⟨fuel, hf⟩
    induction fuel generalizing i with
    | zero => simp [busyPoll] at hf
    | succ n ih =>
      by_cases ht : byteAt bus i = 0
      · rw [busyPoll, if_pos ht] at hf
        obtain ⟨k, hk⟩ := ih (i + 1) hf
        exact ⟨k + 1, by simpa [Nat.add_assoc, Nat.add_comm 1 k] using hk⟩
      · exact ⟨0, by simpa using ht⟩
  · rintro ⟨k, hk⟩
    refine ⟨k + 1, ?_⟩
    induction k generalizing i with
    | zero =>
      simp only [Nat.add_zero] at hk
      simp [busyPoll, hk]
    | succ m ih =>
      by_cases ht : byteAt bus i = 0
      · rw [busyPoll, if_pos ht]
        exact ih (i + 1) (by simpa [Nat.add_assoc, Nat.add_comm 1 m] using hk)
      · simp [busyPoll, ht]

theorem cmdPoll_some_bounds (bus : Bus) :
    ∀ fuel i r j, cmdPoll bus i fuel = some (r, j) → i + 1 ≤ j ∧ j ≤ i + fuel := by
  intro fuel
  induction fuel with
  | zero => intro i r j h; cases h
  | succ n ih =>
    intro i r j h
    rw [cmdPoll] at h
    split at h
    · cases h; omega
    · have := ih (i + 1) r j h
      omega

/-! Claim theorems. -/

/-- Claim C10: the trailing reply bytes of `_cmd8` are stored at
`response[i]` with `i` the outer polling-loop index, but `response` is a
5-byte buffer; for some bus behaviour — here the first byte with a clear
high bit arriving at polling iteration 5 — the index of the store exceeds the
buffer bound, i.e. the out-of-range (`none`) branch of the checked store in
the embedding is reached. -/
theorem c10_cmd8_oob_store_reachable : ∃ bus : Bus, (cmd8Run bus 0).oob = true :=
  ⟨busC, by decide⟩

/-- Claim C3, counterexample: on a bus whose leading CMD8 status byte
(value 1) arrives at polling iteration 0, the trailing-byte stores alias
`response[0]` and `_cmd8` returns the fourth trailing byte 0x55 instead of
the leading status byte, so the trailing bytes are NOT discarded without
influencing the result. -/
theorem c3_counterexample :
    byteAt busA 6 = 1 ∧ (cmd8Run busA 0).ret = 0x55 ∧ (cmd8Run busA 0).ret ≠ 1 := by
  decide

/-- Claim C3, amended: if the first polled byte with a clear high bit
arrives at polling iteration k with 1 ≤ k ≤ 4, then `_cmd8` returns that
leading status byte and the four trailing reply bytes are read without
influencing the returned value.  (At k = 0 the stores alias `response[0]`,
see the counterexample; at k ≥ 5 the store is out of the buffer bounds,
see claim C10.) -/
theorem c3_amended_cmd8_leading_byte (bus : Bus) (i0 k : Nat)
    (hk1 : 1 ≤ k) (hk4 : k ≤ 4)
    (hbefore : ∀ j, j < k → 0x80 ≤ byteAt bus (i0 + 6 + j))
    (hlead : byteAt bus (i0 + 6 + k) < 0x80) :
    (cmd8Run bus i0).ret = byteAt bus (i0 + 6 + k) := by
  unfold cmd8Run
  exact cmd8Poll_ret_of_first_clear bus (SD_COMMAND_TIMEOUT * 1000) 0 (i0 + 6) k
    (by unfold SD_COMMAND_TIMEOUT; omega) hbefore hlead (by omega) (by omega)

/-- Witness for C3: on `busB` the leading byte 5 arrives at iteration 1 and
is returned. -/
theorem c3_witness :
    (1 ≤ 1 ∧ byteAt busB (0 + 6 + 1) < 0x80) ∧ (cmd8Run busB 0).ret = byteAt busB (0 + 6 + 1) :=
  ⟨by decide,
    c3_amended_cmd8_leading_byte busB 0 1 (by decide) (by decide)
      (fun j hj => by
        have hj0 : j = 0 := by omega
        subst hj0; decide)
      (by decide)⟩

/-- Claim C7, counterexample: on the all-zero bus the start-of-block token
wait of `_read` and the busy wait of `_write` never complete — no retry
budget bounds them, contradicting the claim that every busy-wait loop
observes its condition or exhausts a bounded budget. -/
theorem c7_counterexample :
    (¬ ∃ fuel, (readRun busZero 0 512 fuel).isSome = true) ∧
    (¬ ∃ fuel, (busyPoll busZero 0 fuel).isSome = true) := by
  constructor
  · rintro ⟨fuel, hf⟩
    rw [readRun_none_of_no_token busZero 512 (fun k => by simp [byteAt, busZero]) fuel 0] at hf
    cases hf
  · rintro ⟨fuel, hf⟩
    rw [busyPoll_none_of_all_zero busZero (fun k => by simp [byteAt, busZero]) fuel 0] at hf
    cases hf

/-- Claim C7, amended: the command-response polls are bounded — `_cmd`
consumes at most 6 + SD_COMMAND_TIMEOUT + 1 transfers — but the
start-of-block token wait of `_read` and the busy wait of `_write` are
unbounded: they complete (for some fuel) exactly when the bus eventually
yields the awaited byte. -/
theorem c7_amended_poll_termination (bus : Bus) (i len : Nat) :
    ((∃ fuel, (readRun bus i len fuel).isSome = true) ↔
      (∃ k, byteAt bus (i + k) = 0xFE)) ∧
    ((∃ fuel, (busyPoll bus i fuel).isSome = true) ↔
      (∃ k, byteAt bus (i + k) ≠ 0)) ∧
    (cmdRun bus i).2 ≤ i + 6 + SD_COMMAND_TIMEOUT + 1 := by
  refine ⟨readRun_isSome_iff bus len i, busyPoll_isSome_iff bus i, ?_⟩
  unfold cmdRun
  rcases h : cmdPoll bus (i + 6) SD_COMMAND_TIMEOUT with _ | ⟨r, j⟩
  · simp
  · have := cmdPoll_some_bounds bus SD_COMMAND_TIMEOUT (i + 6) r j h
    simp only []
    omega

/-- Every command issued by the V1 init loop is CMD55 or ACMD41, both with
argument 0. -/
theorem initV1_log_mem (bus : Bus) :
    ∀ fuel i cdv p, p ∈ (initV1 bus i cdv fuel).2.2.2 → p = (55, 0) ∨ p = (41, 0) := by
  intro fuel
  induction fuel with
  | zero => intro i cdv p hp; cases hp
  | succ n ih =>
    intro i cdv p hp
    rw [initV1] at hp
    split at hp
    · simp only [List.mem_cons, List.not_mem_nil, or_false] at hp
      exact hp
    · simp only [List.mem_cons] at hp
      rcases hp with hp | hp | hp
      · exact Or.inl hp
      · exact Or.inr hp
      · exact ih _ _ p hp

/-- A successful V1 init loop sets `_cdv` to 512. -/
theorem initV1_ret_cdv (bus : Bus) :
    ∀ fuel i cdv, (initV1 bus i cdv fuel).1 ≠ 0 → (initV1 bus i cdv fuel).2.2.1 = 512 := by
  intro fuel
  induction fuel with
  | zero => intro i cdv h; exact absurd rfl h
  | succ n ih =>
    intro i cdv h
    rw [initV1] at h ⊢
    by_cases hc : (cmdRun bus (cmdRun bus i).2).1 = 0
    · rw [if_pos hc]
    · rw [if_neg hc] at h ⊢
      exact ih _ _ h

/-- Claim C6: for any card whose CMD8 probe response is exactly
`idle | illegalCommand` (5), bring-up takes the V1 path, no command issued
during the whole bring-up carries the high-capacity bit 0x40000000 in its
argument, and on success the block-to-address divisor `_cdv` is 512. -/
theorem c6_v1_path (bus : Bus) (cdv0 : Nat)
    (h : (initialise_card bus cdv0).probe = some 5) :
    (initialise_card bus cdv0).path = some 1 ∧
    (∀ p ∈ (initialise_card bus cdv0).log, p.2 &&& 0x40000000 = 0) ∧
    ((initialise_card bus cdv0).ret ≠ 0 → (initialise_card bus cdv0).cdv = 512) := by
  simp only [initialise_card] at h ⊢
  split at h
  · cases h
  · next hc1 =>
    split at h
    · next hc2 =>
      simp only [Option.some.injEq] at h
      rw [h] at hc2
      exact absurd hc2 (by decide)
    · next hc2 =>
      split at h
      · next hc3 =>
        rw [if_neg hc1, if_neg hc2, if_pos hc3]
        refine ⟨rfl, ?_, ?_⟩
        · intro p hp
          simp only [List.append_assoc, List.mem_append, List.mem_cons,
            List.mem_singleton, List.not_mem_nil, or_false] at hp
          rcases hp with (hp | hp | hp | hp | hp | hp) | hp | hp
          · subst hp; decide
          · subst hp; decide
          · subst hp; decide
          · subst hp; decide
          · subst hp; decide
          · subst hp; decide
          · subst hp; decide
          · rcases initV1_log_mem bus SD_COMMAND_TIMEOUT _ _ p hp with hp | hp <;>
              (subst hp; decide)
        · intro hr
          exact initV1_ret_cdv bus SD_COMMAND_TIMEOUT _ _ hr
      · next hc3 =>
        simp only [Option.some.injEq] at h
        exact absurd h hc3

/-- Witness for C6: on `busD` the probe answers 5 and the V1 path is taken. -/
theorem c6_witness :
    (initialise_card busD 0).probe = some 5 ∧ (initialise_card busD 0).path = some 1 :=
  ⟨by decide, (c6_v1_path busD 0 (by decide)).1⟩

/-- Every failing exit of the write tail step leaves the out-parameter 0. -/
theorem writeTail_err_written (bus : Bus) (isInit : Int) (cdv fuel : Nat)
    (size sector : Nat) (bytes : Int) (i : Nat) (r : RpcOut)
    (hr : writeTail bus isInit cdv fuel size sector bytes i = some r)
    (hne : r.err ≠ OsErr.success) : r.written = 0 := by
  unfold writeTail at hr
  split at hr
  · split at hr
    · cases hr
    · split at hr
      · cases hr; rfl
      · split at hr
        · cases hr
        · split at hr
          · cases hr; rfl
          · cases hr; exact absurd rfl hne
  · cases hr; exact absurd rfl hne

/-- Every failing exit of the write body/tail loop leaves the out-parameter
at 0 (only the final success path stores `bytesWritten`). -/
theorem writeLoopW_err_written (bus : Bus) (isInit : Int) (cdv fuel : Nat) :
    ∀ gas size sector (bytes : Int) i r,
      writeLoopW bus isInit cdv fuel gas size sector bytes i = some r →
      r.err ≠ OsErr.success → r.written = 0 := by
  intro gas
  induction gas with
  | zero =>
    intro size sector bytes i r hr hne
    exact writeTail_err_written bus isInit cdv fuel size sector bytes i r hr hne
  | succ n ih =>
    intro size sector bytes i r hr hne
    rw [writeLoopW] at hr
    split at hr
    · split at hr
      · cases hr
      · split at hr
        · cases hr; rfl
        · exact ih _ _ _ _ r hr hne
    · exact writeTail_err_written bus isInit cdv fuel size sector bytes i r hr hne

/-- Every failing exit of the read tail step leaves the out-parameter 0. -/
theorem readTail_err_written (bus : Bus) (isInit : Int) (cdv fuel : Nat)
    (size sector : Nat) (bytes : Int) (i : Nat) (r : RpcOut)
    (hr : readTail bus isInit cdv fuel size sector bytes i = some r)
    (hne : r.err ≠ OsErr.success) : r.written = 0 := by
  unfold readTail at hr
  split at hr
  · split at hr
    · cases hr
    · split at hr
      · cases hr; rfl
      · cases hr; exact absurd rfl hne
  · cases hr; exact absurd rfl hne

/-- Every failing exit of the read body/tail loop leaves the out-parameter
at 0. -/
theorem readLoopR_err_written (bus : Bus) (isInit : Int) (cdv fuel : Nat) :
    ∀ gas size sector (bytes : Int) i r,
      readLoopR bus isInit cdv fuel gas size sector bytes i = some r →
      r.err ≠ OsErr.success → r.written = 0 := by
  intro gas
  induction gas with
  | zero =>
    intro size sector bytes i r hr hne
    exact readTail_err_written bus isInit cdv fuel size sector bytes i r hr hne
  | succ n ih =>
    intro size sector bytes i r hr hne
    rw [readLoopR] at hr
    split at hr
    · split at hr
      · cases hr
      · split at hr
        · cases hr; rfl
        · exact ih _ _ _ _ r hr hne
    · exact readTail_err_written bus isInit cdv fuel size sector bytes i r hr hne

/-- Every failing exit of the erase tail step leaves the out-parameter 0. -/
theorem eraseTail_err_written (bus : Bus) (isInit : Int) (cdv fuel : Nat)
    (size : Int) (sector : Nat) (bytes : Int) (i : Nat) (r : RpcOut)
    (hr : eraseTail bus isInit cdv fuel size sector bytes i = some r)
    (hne : r.err ≠ OsErr.success) : r.written = 0 := by
  unfold eraseTail at hr
  split at hr
  · split at hr
    · cases hr
    · split at hr
      · cases hr; rfl
      · split at hr
        · cases hr
        · split at hr
          · cases hr; rfl
          · cases hr; exact absurd rfl hne
  · cases hr; exact absurd rfl hne

/-- Every failing exit of the erase body/tail loop leaves the out-parameter
at 0. -/
theorem eraseLoopE_err_written (bus : Bus) (isInit : Int) (cdv fuel : Nat) :
    ∀ gas (size : Int) sector (bytes : Int) i r,
      eraseLoopE bus isInit cdv fuel gas size sector bytes i = some r →
      r.err ≠ OsErr.success → r.written = 0 := by
  intro gas
  induction gas with
  | zero =>
    intro size sector bytes i r hr hne
    exact eraseTail_err_written bus isInit cdv fuel size sector bytes i r hr hne
  | succ n ih =>
    intro size sector bytes i r hr hne
    rw [eraseLoopE] at hr
    split at hr
    · split at hr
      · cases hr
      · split at hr
        · cases hr; rfl
        · exact ih _ _ _ _ r hr hne
    · exact eraseTail_err_written bus isInit cdv fuel size sector bytes i r hr hne

/-- On every non-success exit of `storage_rpc_write` the out-parameter is 0. -/
theorem storage_rpc_write_err_written (bus : Bus) (initOk : Bool)
    (isInit sectors : Int) (cdv dp : Nat) (offset : Int) (size fuel : Nat)
    (r : RpcOut) (hr : storage_rpc_write bus initOk isInit sectors cdv dp offset size fuel = some r)
    (hne : r.err ≠ OsErr.success) : r.written = 0 := by
  simp only [storage_rpc_write] at hr
  split at hr
  · cases hr; rfl
  · split at hr
    · cases hr; rfl
    · split at hr
      · cases hr
      · split at hr
        · cases hr; rfl
        · split at hr
          · split at hr
            · cases hr
            · split at hr
              · cases hr; rfl
              · split at hr
                · cases hr
                · split at hr
                  · cases hr; rfl
                  · exact writeLoopW_err_written bus isInit cdv fuel _ _ _ _ _ r hr hne
          · cases hr; exact absurd rfl hne

/-- On every non-success exit of `storage_rpc_read` the out-parameter is 0. -/
theorem storage_rpc_read_err_written (bus : Bus) (initOk : Bool)
    (isInit sectors : Int) (cdv dp : Nat) (offset : Int) (size fuel : Nat)
    (r : RpcOut) (hr : storage_rpc_read bus initOk isInit sectors cdv dp offset size fuel = some r)
    (hne : r.err ≠ OsErr.success) : r.written = 0 := by
  simp only [storage_rpc_read] at hr
  split at hr
  · cases hr; rfl
  · split at hr
    · cases hr; rfl
    · split at hr
      · cases hr
      · split at hr
        · cases hr; rfl
        · split at hr
          · split at hr
            · cases hr
            · split at hr
              · cases hr; rfl
              · exact readLoopR_err_written bus isInit cdv fuel _ _ _ _ _ r hr hne
          · cases hr; exact absurd rfl hne

/-- On every non-success exit of `storage_rpc_erase` the out-parameter is 0. -/
theorem storage_rpc_erase_err_written (bus : Bus) (initOk : Bool)
    (isInit sectors : Int) (cdv dp : Nat) (offset size : Int) (fuel : Nat)
    (r : RpcOut) (hr : storage_rpc_erase bus initOk isInit sectors cdv dp offset size fuel = some r)
    (hne : r.err ≠ OsErr.success) : r.written = 0 := by
  simp only [storage_rpc_erase] at hr
  split at hr
  · cases hr; rfl
  · split at hr
    · cases hr; rfl
    · split at hr
      · cases hr; rfl
      · split at hr
        · cases hr
        · split at hr
          · cases hr; rfl
          · split at hr
            · split at hr
              · cases hr
              · split at hr
                · cases hr; rfl
                · split at hr
                  · cases hr
                  · split at hr
                    · cases hr; rfl
                    · exact eraseLoopE_err_written bus isInit cdv fuel _ _ _ _ _ r hr hne
            · cases hr; exact absurd rfl hne

/-- Claim C2, counterexample: write of 1025 bytes at offset 0 on `busG` —
the head block's read-modify-write succeeds (512 bytes transferred, visible
in the internal `bytesWritten` counter of the handler, here `progress`), then the
second block's CMD24 is rejected; the handler returns `OS_ERROR_GENERIC`
with the bytes-transferred out-parameter at 0, not at k = 512. -/
theorem c2_counterexample :
    storage_rpc_write busG true 1 100 1 4096 0 1025 1 =
      some ⟨OsErr.generic, 0, 512, 1085⟩ ∧ (0 : Int) ≠ 512 := by decide

/-- Claim C2, amended: when a block-level operation fails after k ≥ 0 bytes
have been transferred, the read/write/erase handlers return an I/O failure
but report 0 — not k — in the bytes-transferred out-parameter; the
out-parameter is written only on the full-success path, and the partial
count is only logged. -/
theorem c2_amended_fail_reports_zero :
    (∀ (bus : Bus) (initOk : Bool) (isInit sectors : Int) (cdv dp : Nat)
        (offset : Int) (size fuel : Nat) (r : RpcOut),
      storage_rpc_write bus initOk isInit sectors cdv dp offset size fuel = some r →
      r.err ≠ OsErr.success → r.written = 0) ∧
    (∀ (bus : Bus) (initOk : Bool) (isInit sectors : Int) (cdv dp : Nat)
        (offset : Int) (size fuel : Nat) (r : RpcOut),
      storage_rpc_read bus initOk isInit sectors cdv dp offset size fuel = some r →
      r.err ≠ OsErr.success → r.written = 0) ∧
    (∀ (bus : Bus) (initOk : Bool) (isInit sectors : Int) (cdv dp : Nat)
        (offset size : Int) (fuel : Nat) (r : RpcOut),
      storage_rpc_erase bus initOk isInit sectors cdv dp offset size fuel = some r →
      r.err ≠ OsErr.success → r.written = 0) :=
  ⟨fun bus initOk isInit sectors cdv dp offset size fuel r hr hne =>
      storage_rpc_write_err_written bus initOk isInit sectors cdv dp offset size fuel r hr hne,
    fun bus initOk isInit sectors cdv dp offset size fuel r hr hne =>
      storage_rpc_read_err_written bus initOk isInit sectors cdv dp offset size fuel r hr hne,
    fun bus initOk isInit sectors cdv dp offset size fuel r hr hne =>
      storage_rpc_erase_err_written bus initOk isInit sectors cdv dp offset size fuel r hr hne⟩

/-- Witness for C2: the failing `busG` write run of the counterexample, fed
through the amended theorem. -/
theorem c2_witness : (⟨OsErr.generic, 0, 512, 1085⟩ : RpcOut).written = 0 :=
  c2_amended_fail_reports_zero.1 busG true 1 100 1 4096 0 1025 1
    ⟨OsErr.generic, 0, 512, 1085⟩ (by decide) (by decide)

theorem readCapture_some_lb (bus : Bus) (len : Nat) :
    ∀ fuel i csd j, readCapture bus i len fuel = some (csd, j) → i + len + 4 ≤ j := by
  intro fuel
  induction fuel with
  | zero => intro i csd j h; cases h
  | succ n ih =>
    intro i csd j h
    rw [readCapture] at h
    split at h
    · cases h; omega
    · have := ih (i + 1) csd j h
      omega

/-- A `_cmdx` exchange advances the transfer index by at least 7. -/
theorem cmdxRun_next_lb (bus : Bus) (i : Nat) : i + 7 ≤ (cmdxRun bus i).2 := by
  unfold cmdxRun
  rcases hp : cmdPoll bus (i + 6) SD_COMMAND_TIMEOUT with _ | ⟨r, p⟩
  · show i + 7 ≤ i + 6 + SD_COMMAND_TIMEOUT + 1
    omega
  · have := cmdPoll_some_bounds bus SD_COMMAND_TIMEOUT (i + 6) r p hp
    show i + 7 ≤ p
    omega

/-- A completed `disk_capacity` call has performed at least 7 bus
transfers beyond its start index. -/
theorem disk_capacity_next_lb (bus : Bus) (i : Nat) (sectors : Int) (fuel : Nat)
    (c : Int) (j : Nat) (h : disk_capacity bus i sectors fuel = some (c, j)) :
    i + 7 ≤ j := by
  have hx := cmdxRun_next_lb bus i
  simp only [disk_capacity] at h
  split at h
  · cases h; omega
  · split at h
    · cases h
    · next csd q hc =>
      have hq := readCapture_some_lb bus 16 fuel _ csd q hc
      split at h
      · cases h; omega
      · split at h
        · cases h; omega
        · cases h; omega

/-- Claim C4, counterexample: an out-of-bounds write request (size 2000
against capacity 1024) is rejected with the out-of-bounds error and zero
bytes reported, but 27 bus transfers have been performed — the bounds check
itself reads the CSD register over the bus, so the zero-bus-transfers part
of the claim fails. -/
theorem c4_counterexample :
    storage_rpc_write busE true 1 2 1 4096 0 2000 1 =
      some ⟨OsErr.outOfBounds, 0, 0, 27⟩ ∧ (27 : Nat) ≠ 0 := by decide

/-- Claim C4, amended: a request failing the validity check (negative
offset, negative size, overflowing sum, or end beyond capacity) is rejected
with the out-of-bounds error and zero bytes reported, provided the session
is marked initialized and the size passed the earlier dataport check — but
the capacity used by the check is fetched by a live CSD register read, so
the rejected call still performs at least 7 bus transfers. -/
theorem c4_amended_oob_reject (bus : Bus) (initOk : Bool) (isInit sectors : Int)
    (cdv dp : Nat) (offset : Int) (size fuel : Nat) (cap : Int) (j : Nat)
    (hok : initOk = true) (hdp : size ≤ dp)
    (hcap : disk_capacity bus 0 sectors fuel = some (cap, j))
    (hbad : isValidMSDArea offset (size : Int) cap = false) :
    storage_rpc_write bus initOk isInit sectors cdv dp offset size fuel =
      some ⟨OsErr.outOfBounds, 0, 0, j⟩ ∧ 7 ≤ j := by
  subst hok
  refine ⟨?_, by simpa using disk_capacity_next_lb bus 0 sectors fuel cap j hcap⟩
  simp only [storage_rpc_write, Bool.not_true, Bool.false_eq_true, if_false,
    if_neg (by omega : ¬ dp < size), hcap, hbad, Bool.not_false, if_true]

/-- Witness for C4: a negative-offset request on `busE` with cached sector
count 7 is rejected as out-of-bounds after the 27-transfer capacity read. -/
theorem c4_witness :
    storage_rpc_write busE true 1 7 1 4096 (-1) 0 1 =
      some ⟨OsErr.outOfBounds, 0, 0, 27⟩ ∧ 7 ≤ 27 :=
  c4_amended_oob_reject busE true 1 7 1 4096 (-1) 0 1 3584 27 rfl (by decide)
    (by decide) (by decide)

/-- Claim C5, counterexample: `disk_capacity` with cached `_sectors = 7` on a
bus whose freshly captured version-1 register has all `hcCSize` bits zero
returns 7 * 512 = 3584, not the claimed freshly decoded
(hcCSize + 1) * 1024 * blockSize = 524288 — the fresh register only selects
the branch, the returned value comes from the cache. -/
theorem c5_counterexample :
    readCapture busE 7 16 1 = some (0x40 :: List.replicate 15 0, 27) ∧
    disk_capacity busE 0 7 1 = some (7 * 512, 27) ∧
    ((ext_bits (0x40 :: List.replicate 15 0) 69 48 : Int) + 1) * 1024 * 512 = 524288 ∧
    (7 * 512 : Int) ≠ 524288 := by decide

/-- Evaluation of `disk_capacity` once CMD9 is accepted and a register has
been captured. -/
theorem disk_capacity_eval (bus : Bus) (i : Nat) (sectors : Int) (fuel : Nat)
    (csd : List Nat) (j : Nat)
    (hcmd : (cmdxRun bus i).1 = 0)
    (hcap : readCapture bus (cmdxRun bus i).2 16 fuel = some (csd, j)) :
    disk_capacity bus i sectors fuel =
      (if ext_bits csd 127 126 = 0 then some ((capDecodeV0 csd : Int), j)
       else if ext_bits csd 127 126 = 1 then some (sectors * 512, j)
       else some (0, j)) := by
  simp only [disk_capacity]
  rw [if_neg (by simp [hcmd]), hcap]

/-- Claim C5, amended: `disk_capacity` does re-issue the CSD register read on
every call and returns 0 when the card does not answer CMD9; for a version-0
register it returns the freshly decoded byte capacity, but for a version-1
register it returns the CACHED sector count `_sectors` (latched at
initialization) times the block size — the freshly read register only
selects the branch. -/
theorem c5_amended_cached_v1 :
    (∀ (bus : Bus) (i : Nat) (sectors : Int) (fuel : Nat),
      (cmdxRun bus i).1 ≠ 0 →
      disk_capacity bus i sectors fuel = some (0, (cmdxRun bus i).2)) ∧
    (∀ (bus : Bus) (i : Nat) (sectors : Int) (fuel : Nat) (csd : List Nat) (j : Nat),
      (cmdxRun bus i).1 = 0 →
      readCapture bus (cmdxRun bus i).2 16 fuel = some (csd, j) →
      ext_bits csd 127 126 = 1 →
      disk_capacity bus i sectors fuel = some (sectors * 512, j)) := by
  constructor
  · intro bus i sectors fuel h
    simp only [disk_capacity, if_pos h]
  · intro bus i sectors fuel csd j h0 hcap hcs
    rw [disk_capacity_eval bus i sectors fuel csd j h0 hcap, hcs]
    norm_num

/-- Witness for C5: the cached-sectors run of the counterexample, through
the amended theorem. -/
theorem c5_witness : disk_capacity busE 0 7 1 = some (7 * 512, 27) :=
  c5_amended_cached_v1.2 busE 0 7 1 (0x40 :: List.replicate 15 0) 27 (by decide)
    (by decide) (by decide)

theorem extBitsAux_lt (data : List Nat) (lsb : Nat) : ∀ n, extBitsAux data lsb n < 2 ^ n := by
  intro n
  induction n with
  | zero => simp [extBitsAux]
  | succ m ih =>
    rw [extBitsAux]
    apply Nat.or_lt_two_pow
    · exact lt_of_lt_of_le ih (Nat.pow_le_pow_right (by omega) (by omega))
    · rw [Nat.shiftLeft_eq]
      calc ((data.getD (15 - ((lsb + m) >>> 3)) 0 >>> ((lsb + m) &&& 7)) &&& 1) * 2 ^ m
          ≤ 1 * 2 ^ m := Nat.mul_le_mul_right _ Nat.and_le_right
        _ < 2 ^ (m + 1) := by rw [one_mul]; exact Nat.pow_lt_pow_succ (by omega)

/-- The stepwise 32-bit reductions of the version-0 capacity computation
collapse to a single reduction of the full product: only the final
`blocknr * block_len` multiplication can wrap. -/
theorem capDecodeV0_eq (csd : List Nat) :
    capDecodeV0 csd =
      (((ext_bits csd 73 62 + 1) <<< (ext_bits csd 49 47 + 2)) *
        (1 <<< ext_bits csd 83 80)) % 4294967296 := by
  have h1 : ext_bits csd 83 80 < 2 ^ 4 := extBitsAux_lt csd 80 4
  have h2 : ext_bits csd 49 47 < 2 ^ 3 := extBitsAux_lt csd 47 3
  have h3 : ext_bits csd 73 62 < 2 ^ 12 := extBitsAux_lt csd 62 12
  simp only [capDecodeV0, Nat.shiftLeft_eq, one_mul]
  have e1 : (2 ^ ext_bits csd 83 80) % 4294967296 = 2 ^ ext_bits csd 83 80 := by
    apply Nat.mod_eq_of_lt
    calc 2 ^ ext_bits csd 83 80 ≤ 2 ^ 15 := Nat.pow_le_pow_right (by omega) (by omega)
      _ < 4294967296 := by norm_num
  have e2 : (2 ^ (ext_bits csd 49 47 + 2)) % 4294967296 = 2 ^ (ext_bits csd 49 47 + 2) := by
    apply Nat.mod_eq_of_lt
    calc 2 ^ (ext_bits csd 49 47 + 2) ≤ 2 ^ 9 := Nat.pow_le_pow_right (by omega) (by omega)
      _ < 4294967296 := by norm_num
  have e3 : ((ext_bits csd 73 62 + 1) * 2 ^ (ext_bits csd 49 47 + 2)) % 4294967296 =
      (ext_bits csd 73 62 + 1) * 2 ^ (ext_bits csd 49 47 + 2) := by
    apply Nat.mod_eq_of_lt
    calc (ext_bits csd 73 62 + 1) * 2 ^ (ext_bits csd 49 47 + 2)
        ≤ 2 ^ 12 * 2 ^ 9 := Nat.mul_le_mul (by omega)
          (Nat.pow_le_pow_right (by omega) (by omega))
      _ < 4294967296 := by norm_num
  rw [e2, e3, e1]

/-- Evaluation of `_sd_sectors` once CMD9 is accepted and a register has
been captured. -/
theorem sd_sectors_eval (bus : Bus) (i cdv fuel : Nat) (csd : List Nat) (j : Nat)
    (hcmd : (cmdxRun bus i).1 = 0)
    (hcap : readCapture bus (cmdxRun bus i).2 16 fuel = some (csd, j)) :
    sd_sectors bus i cdv fuel =
      (if ext_bits csd 127 126 = 0 then some ⟨(sdDecodeV0 csd : Int), 512, j⟩
       else if ext_bits csd 127 126 = 1 then
         some ⟨((ext_bits csd 69 48 : Int) + 1) * 1024, 1, j⟩
       else some ⟨0, cdv, j⟩) := by
  simp only [sd_sectors]
  rw [if_neg (by simp [hcmd]), hcap]

/-- Claim C8, counterexample: on the version-0 register `csdOverflow`
(`cSize = 4095`, `cSizeMult = 7`, `readBlockLen = 15`) the 32-bit `capacity`
product wraps to 0, so `_sd_sectors` reports 0 sectors while the claimed
formula gives 134217728. -/
theorem c8_counterexample :
    sd_sectors busH 0 0 1 = some ⟨0, 512, 27⟩ ∧
    readCapture busH 7 16 1 = some (csdOverflow, 27) ∧
    ((ext_bits csdOverflow 73 62 + 1) <<< (ext_bits csdOverflow 49 47 + 2)) *
      (1 <<< ext_bits csdOverflow 83 80) / 512 = 134217728 ∧
    (0 : Int) ≠ 134217728 := by decide

/-- Claim C8, amended: for every captured register, `_sd_sectors` reports —
for structure 0 — the version-0 formula evaluated in 32-bit wrap-around
arithmetic, `(((cSize+1) << (cSizeMult+2)) * (1 << readBlockLen)) mod 2^32
/ 512`; for structure 1 it reports `(hcCSize + 1) * 1024`; any other
structure value reports 0. -/
theorem c8_amended_sectors_decode (bus : Bus) (i cdv fuel : Nat)
    (csd : List Nat) (j : Nat)
    (hcmd : (cmdxRun bus i).1 = 0)
    (hcap : readCapture bus (cmdxRun bus i).2 16 fuel = some (csd, j)) :
    (sd_sectors bus i cdv fuel).map SdSectorsOut.blocks = some (
      if ext_bits csd 127 126 = 0 then
        (((((ext_bits csd 73 62 + 1) <<< (ext_bits csd 49 47 + 2)) *
            (1 <<< ext_bits csd 83 80)) % 4294967296 / 512 : Nat) : Int)
      else if ext_bits csd 127 126 = 1 then ((ext_bits csd 69 48 : Int) + 1) * 1024
      else 0) := by
  rw [sd_sectors_eval bus i cdv fuel csd j hcmd hcap]
  by_cases hcs0 : ext_bits csd 127 126 = 0
  · rw [if_pos hcs0, if_pos hcs0]
    show some ((sdDecodeV0 csd : Int)) = _
    rw [show sdDecodeV0 csd = capDecodeV0 csd / 512 from rfl, capDecodeV0_eq]
  · by_cases hcs1 : ext_bits csd 127 126 = 1
    · rw [if_neg hcs0, if_neg hcs0, if_pos hcs1, if_pos hcs1]
      simp
    · rw [if_neg hcs0, if_neg hcs0, if_neg hcs1, if_neg hcs1]
      simp

/-- Witness for C8: the amended decode applied to the `busH` capture of
`csdOverflow`. -/
theorem c8_witness :
    (sd_sectors busH 0 0 1).map SdSectorsOut.blocks = some (
      if ext_bits csdOverflow 127 126 = 0 then
        (((((ext_bits csdOverflow 73 62 + 1) <<< (ext_bits csdOverflow 49 47 + 2)) *
            (1 <<< ext_bits csdOverflow 83 80)) % 4294967296 / 512 : Nat) : Int)
      else if ext_bits csdOverflow 127 126 = 1 then
        ((ext_bits csdOverflow 69 48 : Int) + 1) * 1024
      else 0) :=
  c8_amended_sectors_decode busH 0 0 1 csdOverflow 27 (by decide) (by decide)

/-- Disjoint or: below-`2^n` bits or-ed with bits shifted up by `n` add. -/
theorem lor_shiftLeft_eq_add {a b n : Nat} (ha : a < 2 ^ n) :
    a ||| b <<< n = 2 ^ n * b + a := by
  apply Nat.eq_of_testBit_eq
  intro j
  rw [Nat.testBit_lor, Nat.testBit_shiftLeft, Nat.testBit_mul_pow_two_add b ha j]
  by_cases hj : j < n
  · have hn : ¬ n ≤ j := by omega
    simp [hj, hn]
  · have h1 : n ≤ j := by omega
    have h2 : Nat.testBit a j = false :=
      Nat.testBit_lt_two_pow
        (lt_of_lt_of_le ha (Nat.pow_le_pow_right (by omega) (by omega)))
    simp [hj, h1, h2]

theorem leNat_append (l : List Nat) (b : Nat) :
    leNat (l ++ [b]) = leNat l + b * 256 ^ l.length := by
  induction l with
  | nil => simp [leNat]
  | cons x t ih =>
    rw [List.cons_append]
    show x + 256 * leNat (t ++ [b]) = x + 256 * leNat t + b * 256 ^ (t.length + 1)
    rw [ih]
    ring

theorem csdNat_foldl (l : List Nat) : ∀ a : Nat,
    l.foldl (fun acc b => acc * 256 + b) a = a * 256 ^ l.length + leNat l.reverse := by
  induction l with
  | nil => intro a; simp [leNat]
  | cons x t ih =>
    intro a
    rw [List.foldl_cons, ih, List.reverse_cons, leNat_append]
    simp only [List.length_cons, List.length_reverse]
    ring

/-- The big-endian fold of `csdNat` equals the little-endian value of the
reversed byte list. -/
theorem csdNat_eq (l : List Nat) : csdNat l = leNat l.reverse := by
  rw [csdNat, csdNat_foldl]
  simp

/-- Bit `p` of a little-endian byte value lives in byte `p / 8`, bit
`p % 8`. -/
theorem testBit_leNat : ∀ (l : List Nat), (∀ b ∈ l, b < 256) → ∀ p,
    (leNat l).testBit p = (l.getD (p / 8) 0).testBit (p % 8) := by
  intro l
  induction l with
  | nil => intro _ p; simp [leNat]
  | cons x t ih =>
    intro hb p
    have hx : x < 256 := hb x (List.mem_cons_self x t)
    have hle : leNat (x :: t) = 2 ^ 8 * leNat t + x := by
      simp only [leNat]
      ring
    rw [hle, Nat.testBit_mul_pow_two_add (leNat t) (by simpa using hx) p]
    by_cases hp : p < 8
    · rw [if_pos hp]
      have h8 : p / 8 = 0 := by omega
      have h8m : p % 8 = p := by omega
      rw [h8, h8m]
      rfl
    · rw [if_neg hp]
      rw [ih (fun b hbm => hb b (List.mem_cons_of_mem x hbm)) (p - 8)]
      have h8 : (p - 8) / 8 = p / 8 - 1 := by omega
      have h8m : (p - 8) % 8 = p % 8 := by omega
      have h8s : p / 8 = (p / 8 - 1) + 1 := by omega
      rw [h8, h8m]
      conv_rhs => rw [h8s, List.getD_cons_succ]

theorem getD_reverse_of_lt {l : List Nat} {k : Nat} (h : k < l.length) :
    l.reverse.getD k 0 = l.getD (l.length - 1 - k) 0 := by
  simp only [List.getD_eq_getElem?_getD]
  rw [List.getElem?_reverse h]

/-- Loop characterization of `ext_bits`: after `n` iterations the
accumulator is the low `n` bits of the big-integer register value shifted
down by `lsb`. -/
theorem extBitsAux_eq_ref (data : List Nat) (hlen : data.length = 16)
    (hb : ∀ b ∈ data, b < 256) (lsb : Nat) :
    ∀ n, lsb + n ≤ 128 → extBitsAux data lsb n = (csdNat data >>> lsb) % 2 ^ n := by
  intro n
  induction n with
  | zero => intro _; simp [extBitsAux, Nat.mod_one]
  | succ m ih =>
    intro hn
    rw [extBitsAux, ih (by omega)]
    have hdiv : ((lsb + m) >>> 3) = (lsb + m) / 8 := by
      rw [Nat.shiftRight_eq_div_pow]
    have hand : ((lsb + m) &&& 7) = (lsb + m) % 8 := by
      have h7 : (7 : Nat) = 2 ^ 3 - 1 := by norm_num
      rw [h7, Nat.and_pow_two_sub_one_eq_mod]
    have hbyte : data.getD (15 - (lsb + m) / 8) 0 = data.reverse.getD ((lsb + m) / 8) 0 := by
      have hk : (lsb + m) / 8 < data.length := by rw [hlen]; omega
      rw [getD_reverse_of_lt hk, hlen]
    rw [hdiv, hand, hbyte]
    set M := csdNat data >>> lsb with hM
    set dByte := data.reverse.getD ((lsb + m) / 8) 0 with hdB
    have hclean : (dByte >>> ((lsb + m) % 8)) &&& 1 = dByte / 2 ^ ((lsb + m) % 8) % 2 := by
      rw [Nat.and_one_is_mod, Nat.shiftRight_eq_div_pow]
    rw [hclean]
    have hbits : dByte / 2 ^ ((lsb + m) % 8) % 2 = M / 2 ^ m % 2 := by
      have htb : Nat.testBit M m = Nat.testBit dByte ((lsb + m) % 8) := by
        rw [hM, Nat.testBit_shiftRight, csdNat_eq,
          testBit_leNat data.reverse (fun b hbm => hb b (List.mem_reverse.mp hbm)) (lsb + m)]
      rw [Nat.testBit_to_div_mod, Nat.testBit_to_div_mod] at htb
      have b1 : dByte / 2 ^ ((lsb + m) % 8) % 2 = 0 ∨ dByte / 2 ^ ((lsb + m) % 8) % 2 = 1 := by
        omega
      have b2 : M / 2 ^ m % 2 = 0 ∨ M / 2 ^ m % 2 = 1 := by omega
      rcases b1 with h1 | h1 <;> rcases b2 with h2 | h2 <;>
        first
          | omega
          | simp [h1, h2] at htb
    rw [hbits]
    have hmod : M % 2 ^ m < 2 ^ m := Nat.mod_lt _ (Nat.two_pow_pos m)
    rw [lor_shiftLeft_eq_add hmod]
    conv_rhs => rw [← Nat.div_add_mod (M % 2 ^ (m + 1)) (2 ^ m)]
    rw [pow_succ, Nat.mod_mul_right_div_self, Nat.mod_mod_of_dvd M ⟨2, rfl⟩]

/-- Claim C9: for every 16-byte register and every bit range with
msb ≥ lsb, msb within the 128-bit register, and width at most 32,
`ext_bits` agrees with the independent big-integer bit-slice reference in
which bit `p` of the register value is bit `p & 7` of byte `15 - (p >> 3)`
(byte 0 most significant), with bit 0 of the result at `lsb`. -/
theorem c9_ext_bits_matches_reference (data : List Nat) (msb lsb : Nat)
    (hlen : data.length = 16) (hb : ∀ b ∈ data, b < 256)
    (hml : lsb ≤ msb) (hmsb : msb ≤ 127) (hw : 1 + msb - lsb ≤ 32) :
    ext_bits data msb lsb = (csdNat data >>> lsb) % 2 ^ (1 + msb - lsb) := by
  unfold ext_bits
  exact extBitsAux_eq_ref data hlen hb lsb (1 + msb - lsb) (by omega)

/-- Witness for C9: the `cSize` field of the overflow register fixture. -/
theorem c9_witness :
    (csdOverflow.length = 16 ∧ 62 ≤ 73 ∧ (73 : Nat) ≤ 127) ∧
    ext_bits csdOverflow 73 62 = (csdNat csdOverflow >>> 62) % 2 ^ (1 + 73 - 62) :=
  ⟨by decide,
    c9_ext_bits_matches_reference csdOverflow 73 62 (by decide) (by decide)
      (by decide) (by decide) (by decide)⟩

/-- Claim C1: `disk_initialize` returns failure (1) when CMD16 is rejected
after a successful bring-up, yet `post_init` still sets `init_ok` — its
`NULL == hal` check can never fire because `initialise_card` stores the hal
pointer unconditionally — so the session does NOT remain uninitialized: a
subsequent status query reports ready and a subsequent write is accepted
and performs bus transfers instead of being rejected without device
access. -/
theorem c1_failed_init_leaves_session_enabled :
    post_init busF true 1 = some ⟨true, 1, 1024, 1, 1, 128⟩ ∧
    storage_rpc_getState true 1 = (OsErr.success, 0) ∧
    storage_rpc_write busE true 1 1024 1 4096 0 0 1 =
      some ⟨OsErr.success, 0, 0, 27⟩ := by
  decide

end SpiSd
